import Mathlib

/-!
Verification of the ThereAndBackAgain core simulation (src/game.rs, src/levels.rs).

Shallow embedding conventions:
* Rust `usize` arithmetic is modelled as `Nat` with explicit wrapping modulo
  2^64 where the source performs unguarded subtraction (release-profile wrapping
  semantics of `i - 1` in `get_neighbours`).
* `f32` values are modelled as exact rationals (`ℚ`); comparisons of Euclidean
  distances/lengths against constants are translated to comparisons of squared
  lengths against squared constants, which is exact for nonnegative quantities.
  Named `f32` constants (`PI`, `FRAC_PI_2`, `TAU`) are embedded as the exact
  rational value of the corresponding `f32` bit pattern.
* The `f32` intrinsics `atan2` and vector normalisation are transcendental and
  are taken as function parameters; theorems that need a value of one of them
  only use values that the real intrinsic provably takes (e.g. `atan2 0 0 = 0`).
* Bevy ECS plumbing (queries, commands) is modelled by explicit state records;
  a deferred `despawn_recursive`/`remove::<Target>` command becomes a boolean
  field of the per-system result.
* The external `polyanya` planner is out of scope; its `path_on_layers` is
  modelled as an abstract planner parameter, with the layer-exclusion contract
  stated as an explicit assumption where a claim needs it.
-/

/-! ## Grid model (src/levels.rs) -/

/-- `CompassQuadrant` (bevy), the facing carried by a chest tile. -/
inductive CompassQuadrant where
  | North
  | East
  | South
  | West
deriving DecidableEq, Repr

/-- `Tile` from src/levels.rs lines 26-34. -/
inductive Tile where
  | Start
  | Floor
  | Chest (facing : CompassQuadrant)
  | In
  | Out
  | Empty
deriving DecidableEq, Repr

/-- The 9-bit occupancy mask `Flags` from src/levels.rs lines 286-299, one
boolean per bit; the bit-level packing into a `u32` is irrelevant to every
claim, only membership of each named flag matters. -/
structure Flags where
  center : Bool
  top : Bool
  bottom : Bool
  left : Bool
  right : Bool
  topleft : Bool
  topright : Bool
  bottomleft : Bool
  bottomright : Bool
deriving DecidableEq, Repr

/-- `Flags::empty()`. -/
def Flags.emptyFlags : Flags :=
  ⟨false, false, false, false, false, false, false, false, false⟩

/-- `2^64` (as a literal), the modulus of Rust `usize` arithmetic on a 64-bit
target. -/
def U64 : Nat := 18446744073709551616

/-- Wrapping `n - 1` on `usize` (release-profile semantics of the unguarded
`i - 1` in `get_neighbours`). -/
def usizeDec (n : Nat) : Nat := (n + (U64 - 1)) % U64

/-- Wrapping `n + 1` on `usize`. -/
def usizeInc (n : Nat) : Nat := (n + 1) % U64

/-- The lookup pattern
`floor.get(j).and_then(|row| row.get(i)).map(|t| t != &Tile::Empty).unwrap_or(false)`
used for each of the nine neighbour probes in `get_neighbours`
(src/levels.rs lines 199-275). -/
def tileOcc (floor : List (List Tile)) (j i : Nat) : Bool :=
  ((((floor.get? j).bind fun row => row.get? i).map
    fun t => decide (t ≠ Tile.Empty)).getD false)

/-- `get_neighbours` from src/levels.rs lines 199-275, for the single floor the
game uses (the `floor` index is always 0 and `data` always the one grid). The
unguarded `i - 1` / `j - 1` subtractions are embedded with `usize` wrapping. -/
def get_neighbours (floor : List (List Tile)) (i j : Nat) : Flags where
  topleft := tileOcc floor (usizeDec j) (usizeDec i)
  left := tileOcc floor j (usizeDec i)
  bottomleft := tileOcc floor (usizeInc j) (usizeDec i)
  top := tileOcc floor (usizeDec j) i
  center := tileOcc floor j i
  bottom := tileOcc floor (usizeInc j) i
  topright := tileOcc floor (usizeDec j) (usizeInc i)
  right := tileOcc floor j (usizeInc i)
  bottomright := tileOcc floor (usizeInc j) (usizeInc i)

/-- The ideal neighbour probe on signed coordinates: occupied iff the position
is inside the grid and its tile is non-`Empty`; positions with a negative
coordinate are unoccupied. Used to state claim C10. -/
def tileOccZ (floor : List (List Tile)) (j i : Int) : Bool :=
  if 0 ≤ j ∧ 0 ≤ i then tileOcc floor j.toNat i.toNat else false

/-- The intended occupancy mask of cell `(i, j)`: each neighbour flag reflects
the ideal probe at the signed offset coordinate. Used to state claim C10. -/
def neighboursSpec (floor : List (List Tile)) (i j : Nat) : Flags where
  topleft := tileOccZ floor ((j : Int) - 1) ((i : Int) - 1)
  left := tileOccZ floor (j : Int) ((i : Int) - 1)
  bottomleft := tileOccZ floor ((j : Int) + 1) ((i : Int) - 1)
  top := tileOccZ floor ((j : Int) - 1) (i : Int)
  center := tileOccZ floor (j : Int) (i : Int)
  bottom := tileOccZ floor ((j : Int) + 1) (i : Int)
  topright := tileOccZ floor ((j : Int) - 1) ((i : Int) + 1)
  right := tileOccZ floor (j : Int) ((i : Int) + 1)
  bottomright := tileOccZ floor ((j : Int) + 1) ((i : Int) + 1)

lemma tileOcc_row_oob (floor : List (List Tile)) (j i : Nat) (h : floor.length ≤ j) :
    tileOcc floor j i = false := by
  have hn : floor[j]? = none := List.getElem?_eq_none h
  simp [tileOcc, hn]

lemma tileOcc_col_oob (floor : List (List Tile)) (j i : Nat)
    (h : ∀ row ∈ floor, row.length ≤ i) : tileOcc floor j i = false := by
  unfold tileOcc
  cases hrow : floor.get? j with
  | none => simp [hrow]
  | some row =>
    have hmem : row ∈ floor := List.get?_mem hrow
    have hn : row[i]? = none := List.getElem?_eq_none (h row hmem)
    simp [hrow, hn]

lemma tileOccZ_neg_row (floor : List (List Tile)) (j i : Int) (h : j < 0) :
    tileOccZ floor j i = false := by
  unfold tileOccZ
  rw [if_neg]
  rintro ⟨h0, -⟩
  omega

lemma tileOccZ_neg_col (floor : List (List Tile)) (j i : Int) (h : i < 0) :
    tileOccZ floor j i = false := by
  unfold tileOccZ
  rw [if_neg]
  rintro ⟨-, h0⟩
  omega

/-- The two probes agree whenever the wrapped `usize` index either equals the
signed ideal index, or the signed index is negative and the wrapped index is
past the end of the grid (which is what `usize` wrap-around produces). -/
lemma tileOcc_congr (floor : List (List Tile)) (jw iw : Nat) (jz iz : Int)
    (hjrel : ((jw : Int) = jz) ∨ (jz < 0 ∧ floor.length ≤ jw))
    (hirel : ((iw : Int) = iz) ∨ (iz < 0 ∧ ∀ row ∈ floor, row.length ≤ iw)) :
    tileOcc floor jw iw = tileOccZ floor jz iz := by
  rcases hjrel with hj | ⟨hjneg, hjoob⟩
  · rcases hirel with hi | ⟨hineg, hioob⟩
    · have hjz : 0 ≤ jz := by omega
      have hiz : 0 ≤ iz := by omega
      have hjt : jz.toNat = jw := by omega
      have hit : iz.toNat = iw := by omega
      rw [tileOccZ, if_pos ⟨hjz, hiz⟩, hjt, hit]
    · rw [tileOccZ_neg_col floor jz iz hineg, tileOcc_col_oob floor jw iw hioob]
  · rw [tileOccZ_neg_row floor jz iz hjneg, tileOcc_row_oob floor jw iw hjoob]

example : tileOcc [[Tile.Floor, Tile.Empty], [Tile.Start, Tile.Floor]] 1 0 = true := by decide

example :
    get_neighbours [[Tile.Floor, Tile.Empty], [Tile.Start, Tile.Floor]] 0 0 =
      { Flags.emptyFlags with center := true, bottom := true, bottomright := true } := by
  decide

/-- **C10.** For every in-grid cell coordinate `(i, j)` of a grid whose
dimensions fit in `usize`, the occupancy-mask computation `get_neighbours` is
total and treats every neighbour position lying outside the grid (row/column
`-1` reached through wrapping `usize` subtraction, or positions beyond the last
row/column) as unoccupied: it coincides with the ideal signed-coordinate mask
`neighboursSpec`, which leaves exactly the out-of-grid flag bits clear. -/
theorem get_neighbours_oob_unoccupied (floor : List (List Tile)) (i j : Nat)
    (hj : j < floor.length) (hi : i < (floor.getD j []).length)
    (hr : floor.length < U64) (hc : ∀ row ∈ floor, row.length < U64) :
    get_neighbours floor i j = neighboursSpec floor i j := by
  have hrowmem : floor.getD j [] ∈ floor := by
    rw [List.getD_eq_getElem floor [] hj]
    exact List.getElem_mem hj
  have hiU : i + 1 < U64 := by
    have := hc _ hrowmem
    omega
  have hjU : j + 1 < U64 := by omega
  have hjdec : ((usizeDec j : Nat) : Int) = (j : Int) - 1 ∨
      (((j : Int) - 1) < 0 ∧ floor.length ≤ usizeDec j) := by
    rcases Nat.eq_zero_or_pos j with h0 | h0
    · right
      subst h0
      refine ⟨by omega, ?_⟩
      unfold usizeDec U64
      unfold U64 at hr
      omega
    · left
      unfold usizeDec U64
      unfold U64 at hjU
      omega
  have hjid : ((j : Nat) : Int) = (j : Int) ∨
      (((j : Int)) < 0 ∧ floor.length ≤ j) := Or.inl rfl
  have hjinc : ((usizeInc j : Nat) : Int) = (j : Int) + 1 ∨
      (((j : Int) + 1) < 0 ∧ floor.length ≤ usizeInc j) := by
    left
    unfold usizeInc U64
    unfold U64 at hjU
    omega
  have hcol : ∀ row ∈ floor, row.length ≤ U64 - 1 := by
    intro row hrow
    have := hc row hrow
    omega
  have hidec : ((usizeDec i : Nat) : Int) = (i : Int) - 1 ∨
      (((i : Int) - 1) < 0 ∧ ∀ row ∈ floor, row.length ≤ usizeDec i) := by
    rcases Nat.eq_zero_or_pos i with h0 | h0
    · right
      subst h0
      refine ⟨by omega, ?_⟩
      have : usizeDec 0 = U64 - 1 := by
        unfold usizeDec U64
        omega
      rw [this]
      exact hcol
    · left
      unfold usizeDec U64
      unfold U64 at hiU
      omega
  have hiid : ((i : Nat) : Int) = (i : Int) ∨
      (((i : Int)) < 0 ∧ ∀ row ∈ floor, row.length ≤ i) := Or.inl rfl
  have hiinc : ((usizeInc i : Nat) : Int) = (i : Int) + 1 ∨
      (((i : Int) + 1) < 0 ∧ ∀ row ∈ floor, row.length ≤ usizeInc i) := by
    left
    unfold usizeInc U64
    unfold U64 at hiU
    omega
  have e1 := tileOcc_congr floor j i (j : Int) (i : Int) hjid hiid
  have e2 := tileOcc_congr floor (usizeDec j) i ((j : Int) - 1) (i : Int) hjdec hiid
  have e3 := tileOcc_congr floor (usizeInc j) i ((j : Int) + 1) (i : Int) hjinc hiid
  have e4 := tileOcc_congr floor j (usizeDec i) (j : Int) ((i : Int) - 1) hjid hidec
  have e5 := tileOcc_congr floor j (usizeInc i) (j : Int) ((i : Int) + 1) hjid hiinc
  have e6 := tileOcc_congr floor (usizeDec j) (usizeDec i) ((j : Int) - 1) ((i : Int) - 1)
    hjdec hidec
  have e7 := tileOcc_congr floor (usizeDec j) (usizeInc i) ((j : Int) - 1) ((i : Int) + 1)
    hjdec hiinc
  have e8 := tileOcc_congr floor (usizeInc j) (usizeDec i) ((j : Int) + 1) ((i : Int) - 1)
    hjinc hidec
  have e9 := tileOcc_congr floor (usizeInc j) (usizeInc i) ((j : Int) + 1) ((i : Int) + 1)
    hjinc hiinc
  unfold get_neighbours neighboursSpec
  rw [e1, e2, e3, e4, e5, e6, e7, e8, e9]

/-- Witness for C10: the corner cell `(0, 0)` of a concrete 2×2 grid satisfies
every hypothesis, and the computed mask there matches the ideal mask. -/
theorem get_neighbours_oob_unoccupied_witness :
    (0 < ([[Tile.Floor, Tile.Empty], [Tile.Start, Tile.Floor]] :
        List (List Tile)).length) ∧
    get_neighbours [[Tile.Floor, Tile.Empty], [Tile.Start, Tile.Floor]] 0 0 =
      neighboursSpec [[Tile.Floor, Tile.Empty], [Tile.Start, Tile.Floor]] 0 0 := by
  refine ⟨by decide, ?_⟩
  exact get_neighbours_oob_unoccupied [[Tile.Floor, Tile.Empty], [Tile.Start, Tile.Floor]]
    0 0 (by decide) (by decide) (by decide) (by decide)

/-! ## Navigation surface builder (src/levels.rs, `as_navmesh` and helpers) -/

/-- The construction-time failure of the builder; in the source it is the
`unimplemented!("case not handled, design a puzzle without")` panic raised from
the corner-offset match in `as_navmesh` (src/levels.rs lines 403-414), which
the spec names `DegenerateTopology`. -/
inductive NavError where
  | DegenerateTopology
deriving DecidableEq, Repr

/-- The corner-offset table of `as_navmesh` (src/levels.rs lines 391-421): the
`(delta_x, delta_y)` displacement chosen from the {top-left, top, left, center}
quadrant of a cell's occupancy mask, `none` for the two patterns the source
refuses with `unimplemented!`. -/
def cornerOffset (flag : Flags) : Option (ℚ × ℚ) :=
  match flag.topleft, flag.top, flag.left, flag.center with
  | true, true, true, true => some (0, 0)
  | true, true, true, false => some (-1, -1)
  | true, true, false, true => some (1, -1)
  | true, true, false, false => some (0, -1)
  | true, false, true, true => some (-1, 1)
  | true, false, true, false => some (-1, 0)
  | true, false, false, true => none
  | true, false, false, false => some (-1, -1)
  | false, true, true, true => some (1, 1)
  | false, true, true, false => none
  | false, true, false, true => some (1, 0)
  | false, true, false, false => some (1, -1)
  | false, false, true, true => some (0, 1)
  | false, false, true, false => some (-1, 1)
  | false, false, false, true => some (1, 1)
  | false, false, false, false => some (0, 0)

/-- The two unsupported quadrant patterns, as stated by the claim:
(top-left occupied, top free, left free, center occupied) or
(top-left free, top occupied, left occupied, center free). -/
def degenerateCell (flag : Flags) : Bool :=
  (flag.topleft && !flag.top && !flag.left && flag.center) ||
  (!flag.topleft && flag.top && flag.left && !flag.center)

lemma cornerOffset_eq_none_iff (flag : Flags) :
    cornerOffset flag = none ↔ degenerateCell flag = true := by
  rcases flag with ⟨c, t, b, l, r, tl, tr, bl, br⟩
  unfold cornerOffset degenerateCell
  rcases tl <;> rcases t <;> rcases l <;> rcases c <;> simp

/-- A navigation polygon: the ordered vertex-index list passed to
`polyanya::Polygon::new` (the trailing `false` flag of the source constructor
carries no information used by any claim). -/
structure NavPolygon where
  vertexIndices : List Nat
deriving DecidableEq, Repr

/-- The quad emitted for cell `(xi, yi)` of a row of length `rowLen`
(src/levels.rs lines 448-482, identical index arithmetic in all three
branches). -/
def cellPolygon (rowLen xi yi : Nat) : NavPolygon :=
  ⟨[xi + 1 + (rowLen + 1) * yi,
    xi + 1 + (rowLen + 1) * (yi + 1),
    xi + (rowLen + 1) * (yi + 1),
    xi + (rowLen + 1) * yi]⟩

/-- The three per-layer polygon accumulators of `as_navmesh`: `polygons`
(layer 0, the floor), `polygons_in` (layer 1, `Tile::In`), `polygons_out`
(layer 2, `Tile::Out`). -/
structure EmittedLayers where
  layer0 : List NavPolygon
  layerIn : List NavPolygon
  layerOut : List NavPolygon
deriving DecidableEq, Repr

/-- The per-cell body of the `as_navmesh` double loop (src/levels.rs lines
387-485), iterating over one row from column `xi`: for every cell the
corner-offset match runs first (and aborts the build on an unsupported
pattern, before the exclusion set is consulted); then `Tile::In`/`Tile::Out`
cells emit their quad into layer 1/2, `Tile::Empty` emits nothing, and any
other tile emits into layer 0 unless the cell is in `removed_cells`. -/
def emitRow (floor : List (List Tile)) (removed : List (Nat × Nat))
    (yi rowLen : Nat) : Nat → List Tile → Except NavError EmittedLayers
  | _, [] => .ok ⟨[], [], []⟩
  | xi, t :: rest =>
    match cornerOffset (get_neighbours floor xi yi) with
    | none => .error .DegenerateTopology
    | some _ =>
      match emitRow floor removed yi rowLen (xi + 1) rest with
      | .error e => .error e
      | .ok tail =>
        match t with
        | Tile.In => .ok ⟨tail.layer0, cellPolygon rowLen xi yi :: tail.layerIn, tail.layerOut⟩
        | Tile.Out => .ok ⟨tail.layer0, tail.layerIn, cellPolygon rowLen xi yi :: tail.layerOut⟩
        | Tile.Empty => .ok tail
        | _ =>
          if (xi, yi) ∈ removed then .ok tail
          else .ok ⟨cellPolygon rowLen xi yi :: tail.layer0, tail.layerIn, tail.layerOut⟩

/-- The outer row loop of `as_navmesh`, from row `yi`. -/
def emitRows (floor : List (List Tile)) (removed : List (Nat × Nat)) :
    Nat → List (List Tile) → Except NavError EmittedLayers
  | _, [] => .ok ⟨[], [], []⟩
  | yi, row :: rest =>
    match emitRow floor removed yi row.length 0 row with
    | .error e => .error e
    | .ok first =>
      match emitRows floor removed (yi + 1) rest with
      | .error e => .error e
      | .ok later =>
        .ok ⟨first.layer0 ++ later.layer0, first.layerIn ++ later.layerIn,
          first.layerOut ++ later.layerOut⟩

/-- The polygon-emission phase of `Level::as_navmesh` (src/levels.rs lines
376-485) over the level's single floor grid, with the occupancy flags computed
by `get_neighbours` exactly as the asset loader precomputes them
(src/levels.rs lines 169-176). The later phases of `as_navmesh` — vertex
placement, `fix_indexes`' counter-clockwise reordering, placeholder layers and
portal stitching (all delegated to the external `polyanya` crate) — do not
create or drop polygons and are outside this embedding. -/
def as_navmesh (floor : List (List Tile)) (removed : List (Nat × Nat)) :
    Except NavError EmittedLayers :=
  emitRows floor removed 0 floor

lemma cornerOffset_some_of_not_degenerate (flag : Flags)
    (h : cornerOffset flag = some v) : degenerateCell flag = false := by
  by_contra hdeg
  rw [(cornerOffset_eq_none_iff flag).mpr (by revert hdeg; rcases degenerateCell flag <;> simp)]
    at h
  exact Option.noConfusion h

lemma emitRow_error_iff (floor : List (List Tile)) (removed : List (Nat × Nat))
    (yi rowLen : Nat) (rest : List Tile) :
    ∀ xi : Nat,
      emitRow floor removed yi rowLen xi rest = .error .DegenerateTopology ↔
        ∃ k < rest.length, degenerateCell (get_neighbours floor (xi + k) yi) = true := by
  induction rest with
  | nil =>
    intro xi
    simp [emitRow]
  | cons t ts ih =>
    intro xi
    rw [emitRow]
    cases hco : cornerOffset (get_neighbours floor xi yi) with
    | none =>
      simp only
      constructor
      · intro _
        exact ⟨0, by simp, by
          rw [Nat.add_zero]
          exact (cornerOffset_eq_none_iff _).mp hco⟩
      · intro _
        trivial
    | some v =>
      simp only
      have hdeg0 : degenerateCell (get_neighbours floor xi yi) = false :=
        cornerOffset_some_of_not_degenerate _ hco
      cases hrec : emitRow floor removed yi rowLen (xi + 1) ts with
      | error e =>
        cases e
        simp only
        constructor
        · intro _
          obtain ⟨k, hk, hdk⟩ := (ih (xi + 1)).mp hrec
          exact ⟨k + 1, by simp only [List.length_cons]; omega, by
            have : xi + (k + 1) = xi + 1 + k := by omega
            rw [this]
            exact hdk⟩
        · intro _
          trivial
      | ok tail =>
        simp only
        constructor
        · intro h
          exfalso
          revert h
          cases t <;> simp only <;> first
            | exact fun h => Except.noConfusion h
            | (split <;> exact fun h => Except.noConfusion h)
        · rintro ⟨k, hk, hdk⟩
          exfalso
          rcases Nat.eq_zero_or_pos k with hk0 | hk0
          · subst hk0
            rw [Nat.add_zero] at hdk
            rw [hdk] at hdeg0
            exact Bool.noConfusion hdeg0
          · have hk' : k - 1 < ts.length := by simp at hk; omega
            have hdk' : degenerateCell (get_neighbours floor (xi + 1 + (k - 1)) yi) = true := by
              have : xi + 1 + (k - 1) = xi + k := by omega
              rw [this]
              exact hdk
            have := (ih (xi + 1)).mpr ⟨k - 1, hk', hdk'⟩
            rw [hrec] at this
            exact Except.noConfusion this

lemma emitRows_error_iff (floor : List (List Tile)) (removed : List (Nat × Nat))
    (rows : List (List Tile)) :
    ∀ yi : Nat,
      emitRows floor removed yi rows = .error .DegenerateTopology ↔
        ∃ r < rows.length, ∃ k < (rows.getD r []).length,
          degenerateCell (get_neighbours floor k (yi + r)) = true := by
  induction rows with
  | nil =>
    intro yi
    simp [emitRows]
  | cons row rest ih =>
    intro yi
    rw [emitRows]
    cases hrow : emitRow floor removed yi row.length 0 row with
    | error e =>
      cases e
      simp only
      constructor
      · intro _
        obtain ⟨k, hk, hdk⟩ := (emitRow_error_iff floor removed yi row.length row 0).mp hrow
        exact ⟨0, by simp, k, by simpa using hk, by simpa using hdk⟩
      · intro _
        trivial
    | ok first =>
      simp only
      have hnone : ¬ ∃ k < row.length, degenerateCell (get_neighbours floor k yi) = true := by
        intro ⟨k, hk, hdk⟩
        have := (emitRow_error_iff floor removed yi row.length row 0).mpr
          ⟨k, hk, by simpa using hdk⟩
        rw [hrow] at this
        exact Except.noConfusion this
      cases hrest : emitRows floor removed (yi + 1) rest with
      | error e =>
        cases e
        simp only
        constructor
        · intro _
          obtain ⟨r, hr, k, hk, hdk⟩ := (ih (yi + 1)).mp hrest
          exact ⟨r + 1, by simp only [List.length_cons]; omega, k, by simpa using hk, by
            have : yi + (r + 1) = yi + 1 + r := by omega
            rw [this]
            exact hdk⟩
        · intro _
          trivial
      | ok later =>
        simp only
        constructor
        · intro h
          exact Except.noConfusion h
        · rintro ⟨r, hr, k, hk, hdk⟩
          exfalso
          rcases Nat.eq_zero_or_pos r with hr0 | hr0
          · subst hr0
            rw [Nat.add_zero] at hdk
            simp only [List.getD_cons_zero] at hk
            exact hnone ⟨k, hk, hdk⟩
          · have hr' : r - 1 < rest.length := by simp at hr; omega
            have hk' : k < (rest.getD (r - 1) []).length := by
              have : (row :: rest).getD r [] = rest.getD (r - 1) [] := by
                rcases r with - | r'
                · omega
                · simp
              rw [this] at hk
              exact hk
            have hdk' : degenerateCell (get_neighbours floor k (yi + 1 + (r - 1))) = true := by
              have : yi + 1 + (r - 1) = yi + r := by omega
              rw [this]
              exact hdk
            have := (ih (yi + 1)).mpr ⟨r - 1, hr', k, hk', hdk'⟩
            rw [hrest] at this
            exact Except.noConfusion this

/-- Rectangularity of the parsed grid: every row has the length of the first
row. The asset loader computes the neighbour table with the first row's length
for every row (src/levels.rs lines 169-176), and `as_navmesh` indexes that
table by per-row column index, so the source assumes this shape. -/
def Rectangular (floor : List (List Tile)) : Prop :=
  ∀ row ∈ floor, row.length = (floor.getD 0 []).length

instance (floor : List (List Tile)) : Decidable (Rectangular floor) := by
  unfold Rectangular
  infer_instance

/-- **C6.** For every grid and exclusion set, the builder fails with
`DegenerateTopology` exactly when some cell's {top-left, top, left, center}
occupancy quadrant matches one of the two unsupported patterns of
`degenerateCell`; otherwise it returns a surface. The failure condition does
not mention the exclusion set at all, so it is determined solely by the grid —
in particular the builder is deterministic on the same input (it is a pure
function of its input in this embedding). -/
theorem as_navmesh_degenerate_iff (floor : List (List Tile))
    (removed : List (Nat × Nat)) (hrect : Rectangular floor) :
    (as_navmesh floor removed = .error .DegenerateTopology ↔
      ∃ yi < floor.length, ∃ xi < (floor.getD yi []).length,
        degenerateCell (get_neighbours floor xi yi) = true) ∧
    ((∃ layers, as_navmesh floor removed = .ok layers) ↔
      ¬ ∃ yi < floor.length, ∃ xi < (floor.getD yi []).length,
        degenerateCell (get_neighbours floor xi yi) = true) ∧
    ∀ removed' : List (Nat × Nat),
      (as_navmesh floor removed = .error .DegenerateTopology ↔
        as_navmesh floor removed' = .error .DegenerateTopology) := by
  have hmain : ∀ rm : List (Nat × Nat),
      as_navmesh floor rm = .error .DegenerateTopology ↔
        ∃ yi < floor.length, ∃ xi < (floor.getD yi []).length,
          degenerateCell (get_neighbours floor xi yi) = true := by
    intro rm
    have h := emitRows_error_iff floor rm floor 0
    unfold as_navmesh
    rw [h]
    constructor
    · rintro ⟨r, hr, k, hk, hdk⟩
      exact ⟨r, hr, k, hk, by simpa using hdk⟩
    · rintro ⟨yi, hyi, xi, hxi, hdk⟩
      exact ⟨yi, hyi, xi, hxi, by simpa using hdk⟩
  refine ⟨hmain removed, ?_, fun removed' => (hmain removed).trans (hmain removed').symm⟩
  constructor
  · rintro ⟨layers, hok⟩ hdeg
    have := (hmain removed).mpr hdeg
    rw [hok] at this
    exact Except.noConfusion this
  · intro hdeg
    cases hres : as_navmesh floor removed with
    | error e =>
      cases e
      exact absurd ((hmain removed).mp hres) hdeg
    | ok layers => exact ⟨layers, rfl⟩

/-- Witness for C6: a concrete 2×2 grid whose cell `(1, 1)` has the quadrant
pattern (top-left occupied, top free, left free, center occupied); the builder
fails on it, and the iff instantiates. -/
theorem as_navmesh_degenerate_iff_witness :
    Rectangular [[Tile.Floor, Tile.Empty], [Tile.Empty, Tile.Floor]] ∧
    (as_navmesh [[Tile.Floor, Tile.Empty], [Tile.Empty, Tile.Floor]] [] =
        .error .DegenerateTopology ↔
      ∃ yi < ([[Tile.Floor, Tile.Empty], [Tile.Empty, Tile.Floor]] :
          List (List Tile)).length,
        ∃ xi < (([[Tile.Floor, Tile.Empty], [Tile.Empty, Tile.Floor]] :
            List (List Tile)).getD yi []).length,
          degenerateCell
            (get_neighbours [[Tile.Floor, Tile.Empty], [Tile.Empty, Tile.Floor]] xi yi) =
            true) := by
  refine ⟨by decide, ?_⟩
  exact (as_navmesh_degenerate_iff [[Tile.Floor, Tile.Empty], [Tile.Empty, Tile.Floor]]
    [] (by decide)).1

example :
    as_navmesh [[Tile.Floor, Tile.Empty], [Tile.Empty, Tile.Floor]] [] =
      .error .DegenerateTopology := rfl

example : ∃ layers,
    as_navmesh [[Tile.Floor, Tile.Floor], [Tile.Floor, Tile.Floor]] [] = .ok layers := by
  exact ⟨_, rfl⟩

/-! ## Layer-0 polygon count (claim C9) -/

/-- Tiles emitted into layer 0: non-`Empty` and non-portal, i.e. `Start`,
`Floor` or `Chest` (the `_` arm of the tile match in `as_navmesh`,
src/levels.rs lines 469-484). -/
def isFloorish (t : Tile) : Bool :=
  match t with
  | Tile.Start => true
  | Tile.Floor => true
  | Tile.Chest _ => true
  | Tile.In => false
  | Tile.Out => false
  | Tile.Empty => false

/-- The number of grid cells whose tile is `Start`, `Floor` or `Chest` and
whose coordinate `(xi, yi)` is not in the exclusion set — the count claim C9
asserts for layer 0. -/
def layer0CellCount (floor : List (List Tile)) (removed : List (Nat × Nat)) : Nat :=
  (((List.range floor.length).map fun yi =>
    (((List.range (floor.getD yi []).length).filter fun xi =>
      isFloorish ((floor.getD yi []).getD xi Tile.Empty) &&
        !decide ((xi, yi) ∈ removed)).length))).sum

lemma length_filter_range_succ (n : Nat) (p : Nat → Bool) :
    ((List.range (n + 1)).filter p).length =
      (if p 0 then 1 else 0) + ((List.range n).filter fun k => p (k + 1)).length := by
  have hfun : (p ∘ Nat.succ) = fun k => p (k + 1) := rfl
  rw [List.range_succ_eq_map, List.filter_cons]
  split
  · simp [List.filter_map, hfun]
    omega
  · simp [List.filter_map, hfun]

lemma sum_map_range_succ (n : Nat) (g : Nat → Nat) :
    ((List.range (n + 1)).map g).sum = g 0 + ((List.range n).map fun k => g (k + 1)).sum := by
  have hfun : (g ∘ Nat.succ) = fun k => g (k + 1) := rfl
  rw [List.range_succ_eq_map]
  simp [hfun]

lemma emitRow_ok_layers (floor : List (List Tile)) (removed : List (Nat × Nat))
    (yi rowLen : Nat) (rest : List Tile) :
    ∀ (xi : Nat) (tail : EmittedLayers),
      emitRow floor removed yi rowLen xi rest = .ok tail →
      tail.layer0.length =
        ((List.range rest.length).filter fun k =>
          isFloorish (rest.getD k Tile.Empty) && !decide ((xi + k, yi) ∈ removed)).length := by
  induction rest with
  | nil =>
    intro xi tail h
    rw [emitRow] at h
    cases h
    simp
  | cons t ts ih =>
    intro xi tail h
    rw [emitRow] at h
    cases hco : cornerOffset (get_neighbours floor xi yi) with
    | none =>
      rw [hco] at h
      exact Except.noConfusion h
    | some v =>
      rw [hco] at h
      cases hrec : emitRow floor removed yi rowLen (xi + 1) ts with
      | error e =>
        rw [hrec] at h
        exact Except.noConfusion h
      | ok tailRec =>
        rw [hrec] at h
        have hrecLen := ih (xi + 1) tailRec hrec
        rw [List.length_cons, length_filter_range_succ]
        have hshift :
            ((List.range ts.length).filter fun k =>
              isFloorish ((t :: ts).getD (k + 1) Tile.Empty) &&
                !decide ((xi + (k + 1), yi) ∈ removed)) =
            ((List.range ts.length).filter fun k =>
              isFloorish (ts.getD k Tile.Empty) && !decide ((xi + 1 + k, yi) ∈ removed)) := by
          apply List.filter_congr
          intro k hk
          have harith : xi + (k + 1) = xi + 1 + k := by omega
          rw [List.getD_cons_succ, harith]
        rw [hshift]
        cases t with
        | Start =>
          simp only at h
          split at h
          · cases h
            simp only [List.getD_cons_zero, Nat.add_zero] at *
            rw [hrecLen]
            simp_all
          · cases h
            simp only [List.getD_cons_zero, Nat.add_zero] at *
            simp_all [isFloorish, Nat.add_comm]
        | Floor =>
          simp only at h
          split at h
          · cases h
            simp only [List.getD_cons_zero, Nat.add_zero] at *
            rw [hrecLen]
            simp_all
          · cases h
            simp only [List.getD_cons_zero, Nat.add_zero] at *
            simp_all [isFloorish, Nat.add_comm]
        | Chest facing =>
          simp only at h
          split at h
          · cases h
            simp only [List.getD_cons_zero, Nat.add_zero] at *
            rw [hrecLen]
            simp_all
          · cases h
            simp only [List.getD_cons_zero, Nat.add_zero] at *
            simp_all [isFloorish, Nat.add_comm]
        | In =>
          cases h
          simp only [List.getD_cons_zero, Nat.add_zero]
          rw [hrecLen]
          simp [isFloorish]
        | Out =>
          cases h
          simp only [List.getD_cons_zero, Nat.add_zero]
          rw [hrecLen]
          simp [isFloorish]
        | Empty =>
          cases h
          simp only [List.getD_cons_zero, Nat.add_zero]
          rw [hrecLen]
          simp [isFloorish]

lemma emitRows_ok_layer0 (floor : List (List Tile)) (removed : List (Nat × Nat))
    (rows : List (List Tile)) :
    ∀ (yi : Nat) (tail : EmittedLayers),
      emitRows floor removed yi rows = .ok tail →
      tail.layer0.length =
        (((List.range rows.length).map fun r =>
          (((List.range (rows.getD r []).length).filter fun xi =>
            isFloorish ((rows.getD r []).getD xi Tile.Empty) &&
              !decide ((xi, yi + r) ∈ removed)).length))).sum := by
  induction rows with
  | nil =>
    intro yi tail h
    rw [emitRows] at h
    cases h
    simp
  | cons row rest ih =>
    intro yi tail h
    rw [emitRows] at h
    cases hrow : emitRow floor removed yi row.length 0 row with
    | error e =>
      rw [hrow] at h
      exact Except.noConfusion h
    | ok first =>
      rw [hrow] at h
      cases hrest : emitRows floor removed (yi + 1) rest with
      | error e =>
        rw [hrest] at h
        exact Except.noConfusion h
      | ok later =>
        rw [hrest] at h
        cases h
        have h1 := emitRow_ok_layers floor removed yi row.length row 0 first hrow
        have h2 := ih (yi + 1) later hrest
        simp only [List.length_cons]
        rw [List.length_append, h1, h2, sum_map_range_succ]
        congr 1
        · simp only [List.getD_cons_zero, Nat.add_zero]
          apply congrArg List.length
          apply List.filter_congr
          intro k hk
          rw [Nat.zero_add]
        · apply congrArg List.sum
          apply List.map_congr_left
          intro k hk
          simp only [List.getD_cons_succ]
          apply congrArg List.length
          apply List.filter_congr
          intro xi hxi
          have harith : yi + 1 + k = yi + (k + 1) := by omega
          rw [harith]

/-- **C9.** For every grid and exclusion set on which the builder succeeds,
the number of polygons emitted into layer 0 equals the number of grid cells
whose tile is `Start`, `Floor` or `Chest` and which are not in the exclusion
set; and rebuilding with the empty exclusion set after excluding and then
un-excluding cells yields the same per-layer polygon counts as the original
surface (the builder being a pure function of grid and exclusion set). -/
theorem as_navmesh_layer0_count (floor : List (List Tile))
    (removed : List (Nat × Nat)) (hrect : Rectangular floor) :
    (∀ layers, as_navmesh floor removed = .ok layers →
      layers.layer0.length = layer0CellCount floor removed) ∧
    (∀ l1 l2, as_navmesh floor [] = .ok l1 → as_navmesh floor [] = .ok l2 →
      l1.layer0.length = l2.layer0.length ∧ l1.layerIn.length = l2.layerIn.length ∧
        l1.layerOut.length = l2.layerOut.length) := by
  constructor
  · intro layers h
    have := emitRows_ok_layer0 floor removed floor 0 layers h
    rw [this]
    unfold layer0CellCount
    apply congrArg List.sum
    apply List.map_congr_left
    intro r hr
    apply congrArg List.length
    apply List.filter_congr
    intro xi hxi
    rw [Nat.zero_add]
  · intro l1 l2 h1 h2
    rw [h1] at h2
    cases h2
    exact ⟨rfl, rfl, rfl⟩

/-- Witness for C9: a concrete 2×2 grid (start, floor, portal-in, chest) with
the cell `(1, 0)` excluded; the layer-0 count both computes to 2 via the
theorem and concretely. -/
theorem as_navmesh_layer0_count_witness :
    Rectangular [[Tile.Start, Tile.Floor], [Tile.In, Tile.Chest CompassQuadrant.North]] ∧
    ∀ layers,
      as_navmesh [[Tile.Start, Tile.Floor], [Tile.In, Tile.Chest CompassQuadrant.North]]
          [(1, 0)] = .ok layers →
      layers.layer0.length =
        layer0CellCount [[Tile.Start, Tile.Floor], [Tile.In, Tile.Chest CompassQuadrant.North]]
          [(1, 0)] := by
  refine ⟨by decide, ?_⟩
  exact (as_navmesh_layer0_count
    [[Tile.Start, Tile.Floor], [Tile.In, Tile.Chest CompassQuadrant.North]]
    [(1, 0)] (by decide)).1

example :
    layer0CellCount [[Tile.Start, Tile.Floor], [Tile.In, Tile.Chest CompassQuadrant.North]]
      [(1, 0)] = 2 := by decide

/-! ## Agents and collision policy (src/game.rs) -/

/-- `HobbitState` (src/game.rs lines 74-79): `LFG` is the outbound/Seeking
state, `Tired` the homebound/Returning state. -/
inductive HobbitState where
  | LFG
  | Tired
deriving DecidableEq, Repr

/-- `GameEvent` (src/game.rs lines 542-546). -/
inductive GameEvent where
  | HomeWithTreasure
  | CollidedWithHobbit
deriving DecidableEq, Repr

/-- `ColliderKind` (src/game.rs lines 551-555). -/
inductive ColliderKind where
  | Hobbit
  | Blade
deriving DecidableEq, Repr

/-- One entity as seen by the `colliding_hobbits` query: its id, collider
kind, optional `Hobbit` component, and the contact feed's list of entities
currently colliding with it (`CollidingEntities`). -/
structure CollEnt where
  id : Nat
  kind : ColliderKind
  hobbit : Option HobbitState
  colliding : List Nat
deriving DecidableEq, Repr

/-- The verdict of src/game.rs lines 577-578: the other party is a blade, or
is a hobbit in the opposite behavioral state. -/
def collisionVerdict (me : HobbitState) (other : CollEnt) : Bool :=
  decide (other.kind = ColliderKind.Blade) ||
  (match other.hobbit with
   | some ost => decide (ost ≠ me)
   | none => false)

/-- `colliding_hobbits` (src/game.rs lines 557-626): for every entity with a
`Hobbit` component, and every entity of its contact list found in the query,
if the verdict holds the entity itself is despawned and one
`CollidedWithHobbit` event is sent. Returns the despawn commands issued (in
order) and the events sent. The explosion particle effect and audio trigger
are presentation-only and not modelled. -/
def colliding_hobbits (world : List CollEnt) : List Nat × List GameEvent :=
  world.foldl
    (fun acc e =>
      match e.hobbit with
      | none => acc
      | some st =>
        e.colliding.foldl
          (fun acc2 oid =>
            match world.find? fun w => decide (w.id = oid) with
            | some other =>
              if collisionVerdict st other then
                (acc2.1 ++ [e.id], acc2.2 ++ [GameEvent.CollidedWithHobbit])
              else acc2
            | none => acc2)
          acc)
    ([], [])

/-- **C1, counterexample.** Two live hobbits in opposite states whose mutual
contact is reported symmetrically by the contact feed (as avian's
`CollidingEntities` does for both halves of a contact pair): the resolver
despawns BOTH of them — the Returning one included — and emits TWO
`CollidedWithHobbit` events, not exactly one destruction of the Seeking agent
with exactly one event. -/
theorem colliding_hobbits_both_destroyed_cex :
    colliding_hobbits
      [⟨0, ColliderKind.Hobbit, some HobbitState.LFG, [1]⟩,
       ⟨1, ColliderKind.Hobbit, some HobbitState.Tired, [0]⟩] =
      ([0, 1], [GameEvent.CollidedWithHobbit, GameEvent.CollidedWithHobbit]) := by
  decide

/-- **C1, amended.** When two live agents in opposite behavioral states are
mutually reported as colliding by the contact feed (and have no other
contacts), the collision resolver destroys BOTH of them and emits one
`CollidedWithHobbit` event per destroyed agent, i.e. two events for the
collision; the policy is symmetric in the two states and does not single out
the Seeking agent. -/
theorem colliding_hobbits_both_destroyed (a b : Nat) (s s' : HobbitState)
    (hab : a ≠ b) (hss : s ≠ s') :
    colliding_hobbits
      [⟨a, ColliderKind.Hobbit, some s, [b]⟩, ⟨b, ColliderKind.Hobbit, some s', [a]⟩] =
      ([a, b], [GameEvent.CollidedWithHobbit, GameEvent.CollidedWithHobbit]) := by
  have hab' : decide (a = b) = false := by simp [hab]
  have hba' : decide (b = a) = false := by simp [Ne.symm hab]
  have hss' : decide (s' ≠ s) = true := by simp [Ne.symm hss]
  have hss2 : decide (s ≠ s') = true := by simp [hss]
  simp [colliding_hobbits, List.find?, hab', hba', hss', hss2, collisionVerdict, hss,
    Ne.symm hss]

/-- Witness for the amended C1. -/
theorem colliding_hobbits_both_destroyed_witness :
    colliding_hobbits
      [⟨0, ColliderKind.Hobbit, some HobbitState.LFG, [1]⟩,
       ⟨1, ColliderKind.Hobbit, some HobbitState.Tired, [0]⟩] =
      ([0, 1], [GameEvent.CollidedWithHobbit, GameEvent.CollidedWithHobbit]) :=
  colliding_hobbits_both_destroyed 0 1 HobbitState.LFG HobbitState.Tired
    (by decide) (by decide)

/-! ## Planning queries and layer exclusion (claim C2) -/

/-- A path waypoint annotated with the navigation layer it lies on (layer 0:
floor, layer 1: the `PortalIn` plane, layer 2: the `PortalOut` plane, matching
the layer order built by `as_navmesh`). -/
structure Waypoint where
  x : ℚ
  y : ℚ
  layer : Nat
deriving DecidableEq, Repr

/-- The layer-exclusion set built in `give_target` (src/game.rs lines
420-440): a fresh set with layer 2 inserted for a `LFG` (Seeking) hobbit,
layer 1 for a `Tired` (Returning) one. -/
def give_target_exclusion (state : HobbitState) : Finset Nat :=
  match state with
  | HobbitState.LFG => insert 2 (∅ : Finset Nat)
  | HobbitState.Tired => insert 1 (∅ : Finset Nat)

/-- The layer-exclusion set built in `reevaluate_path` (src/game.rs lines
476-497), textually identical to the one in `give_target`. -/
def reevaluate_path_exclusion (state : HobbitState) : Finset Nat :=
  match state with
  | HobbitState.LFG => insert 2 (∅ : Finset Nat)
  | HobbitState.Tired => insert 1 (∅ : Finset Nat)

/-- The contract of the external planner (`polyanya::Mesh::path_on_layers`):
a returned path never contains a waypoint on an excluded layer. -/
def PlannerRespectsExclusion
    (plan : (ℚ × ℚ) → (ℚ × ℚ) → Finset Nat → Option (List Waypoint)) : Prop :=
  ∀ f t ex p, plan f t ex = some p → ∀ w ∈ p, w.layer ∉ ex

/-- **C2.** Every planning query made on behalf of an agent — the initial
assignment in `give_target` and every re-validation in `reevaluate_path` —
excludes exactly layer 2 (PortalOut) for a `LFG`/Seeking agent and exactly
layer 1 (PortalIn) for a `Tired`/Returning agent; hence, for any planner
respecting layer exclusion, a Seeking agent never receives a path entering
layer 2 and a Returning agent never one entering layer 1, through either
query site. -/
theorem planning_layer_exclusion
    (plan : (ℚ × ℚ) → (ℚ × ℚ) → Finset Nat → Option (List Waypoint))
    (hplan : PlannerRespectsExclusion plan) :
    (give_target_exclusion HobbitState.LFG = {2} ∧
     give_target_exclusion HobbitState.Tired = {1} ∧
     reevaluate_path_exclusion HobbitState.LFG = {2} ∧
     reevaluate_path_exclusion HobbitState.Tired = {1}) ∧
    (∀ f t p, plan f t (give_target_exclusion HobbitState.LFG) = some p →
      ∀ w ∈ p, w.layer ≠ 2) ∧
    (∀ f t p, plan f t (give_target_exclusion HobbitState.Tired) = some p →
      ∀ w ∈ p, w.layer ≠ 1) ∧
    (∀ f t p, plan f t (reevaluate_path_exclusion HobbitState.LFG) = some p →
      ∀ w ∈ p, w.layer ≠ 2) ∧
    (∀ f t p, plan f t (reevaluate_path_exclusion HobbitState.Tired) = some p →
      ∀ w ∈ p, w.layer ≠ 1) := by
  refine ⟨⟨rfl, rfl, rfl, rfl⟩, ?_, ?_, ?_, ?_⟩ <;>
    · intro f t p hp w hw
      have hnot := hplan f t _ p hp w hw
      intro heq
      apply hnot
      rw [heq]
      simp [give_target_exclusion, reevaluate_path_exclusion]

/-- The trivially-respecting planner that always reports "no path"; used only
to instantiate the C2 theorem. -/
def plannerNone : (ℚ × ℚ) → (ℚ × ℚ) → Finset Nat → Option (List Waypoint) :=
  fun _ _ _ => none

/-- Witness for C2: `plannerNone` satisfies the contract, and the theorem
instantiates at it. -/
theorem planning_layer_exclusion_witness :
    (give_target_exclusion HobbitState.LFG = {2} ∧
     give_target_exclusion HobbitState.Tired = {1} ∧
     reevaluate_path_exclusion HobbitState.LFG = {2} ∧
     reevaluate_path_exclusion HobbitState.Tired = {1}) ∧
    (∀ f t p, plannerNone f t
        (give_target_exclusion HobbitState.LFG) = some p → ∀ w ∈ p, w.layer ≠ 2) ∧
    (∀ f t p, plannerNone f t
        (give_target_exclusion HobbitState.Tired) = some p → ∀ w ∈ p, w.layer ≠ 1) ∧
    (∀ f t p, plannerNone f t
        (reevaluate_path_exclusion HobbitState.LFG) = some p → ∀ w ∈ p, w.layer ≠ 2) ∧
    (∀ f t p, plannerNone f t
        (reevaluate_path_exclusion HobbitState.Tired) = some p → ∀ w ∈ p, w.layer ≠ 1) :=
  planning_layer_exclusion plannerNone
    (fun _ _ _ p h => Option.noConfusion h)

/-! ## Replanning backoff (src/game.rs `reevaluate_path`, claims C3 and C4) -/

/-- The backoff-relevant state of one agent: whether it currently has a
`Target` component, its `entity_deltas` entry (`none` when absent), and
whether a despawn command has been issued for it. -/
structure AgentBackoff where
  hasTarget : Bool
  delta : Option ℚ
  despawned : Bool
deriving DecidableEq, Repr

/-- The effective avoidance delta used for the planner query
(src/game.rs line 498): the `entity_deltas` entry, or the base 0.1. -/
def effectiveDelta (a : AgentBackoff) : ℚ := a.delta.getD (1/10)

/-- One failed re-validation for an agent with a `Target` (src/game.rs lines
509-517): the `entity_deltas` entry is created at the base 0.1 if absent,
then multiplied by 3; if the result exceeds 10.0 the `Target` component is
removed. No despawn command is ever issued by this system. -/
def reevaluate_fail (a : AgentBackoff) : AgentBackoff :=
  let d := a.delta.getD (1/10) * 3
  { a with delta := some d, hasTarget := if 10 < d then false else a.hasTarget }

/-- One successful re-validation (src/game.rs lines 500-508): the fresh path
is installed (the agent keeps its `Target`) and its `entity_deltas` entry is
removed. -/
def reevaluate_success (a : AgentBackoff) : AgentBackoff :=
  { a with delta := none, hasTarget := true }

def initialBackoff : AgentBackoff := ⟨true, none, false⟩

lemma backoff_threshold (m : Nat) :
    (if (10 : ℚ) < 1/10 * 3 ^ (m + 1) then false else decide (m < 5)) =
      decide (m + 1 < 5) := by
  rcases le_or_lt (m + 1) 4 with h | h
  · have h3 : (3 : ℚ) ^ (m + 1) ≤ 3 ^ 4 := pow_le_pow_right₀ (by norm_num) h
    rw [if_neg (by norm_num at h3 ⊢; linarith)]
    have h5 : m < 5 := by omega
    have h5' : m + 1 < 5 := by omega
    simp [h5, h5']
  · have h3 : (3 : ℚ) ^ 5 ≤ 3 ^ (m + 1) := pow_le_pow_right₀ (by norm_num) h
    rw [if_pos (by norm_num at h3 ⊢; linarith)]
    have h5 : ¬ (m + 1 < 5) := by omega
    simp [h5]

lemma reevaluate_fail_iter (n : Nat) :
    reevaluate_fail^[n] initialBackoff =
      ⟨decide (n < 5), if n = 0 then none else some (1/10 * 3 ^ n), false⟩ := by
  induction n with
  | zero => rfl
  | succ m ih =>
    rw [Function.iterate_succ_apply', ih]
    unfold reevaluate_fail
    rcases Nat.eq_zero_or_pos m with hm | hm
    · subst hm
      norm_num
    · have hm' : ¬ (m = 0) := by omega
      simp only [hm', if_false, Option.getD_some]
      have hpow : (1/10 : ℚ) * 3 ^ m * 3 = 1/10 * 3 ^ (m + 1) := by
        rw [pow_succ]
        ring
      rw [hpow, backoff_threshold]
      simp

/-- **C3.** Each re-validation failure multiplies the agent's effective
avoidance delta (base 0.1 when the agent has no entry yet) by exactly 3,
removes the `Target` exactly when the resulting delta exceeds the 10.0
ceiling, and never despawns the agent; consequently, starting from a fresh
agent, the recorded delta after `n ≥ 1` consecutive failures is `0.1 * 3^n`
(i.e. 0.3, 0.9, 2.7, 8.1, 24.3, …) and the `Target` is dropped exactly on
the 5th consecutive failure. -/
theorem reevaluate_backoff_sequence :
    (∀ a : AgentBackoff,
      (reevaluate_fail a).delta = some (effectiveDelta a * 3) ∧
      (reevaluate_fail a).despawned = a.despawned ∧
      ((reevaluate_fail a).hasTarget = false ↔
        (10 < effectiveDelta a * 3 ∨ a.hasTarget = false))) ∧
    (∀ n : Nat,
      (reevaluate_fail^[n] initialBackoff).delta =
        (if n = 0 then none else some (1/10 * 3 ^ n)) ∧
      ((reevaluate_fail^[n] initialBackoff).hasTarget = true ↔ n < 5) ∧
      (reevaluate_fail^[n] initialBackoff).despawned = false) := by
  constructor
  · intro a
    refine ⟨rfl, rfl, ?_⟩
    unfold reevaluate_fail effectiveDelta
    dsimp only
    rcases le_or_lt (a.delta.getD (1/10) * 3) 10 with h | h
    · rw [if_neg (not_lt.mpr h)]
      constructor
      · intro hf
        exact Or.inr hf
      · rintro (h10 | hf)
        · linarith
        · exact hf
    · rw [if_pos h]
      constructor
      · intro _
        exact Or.inl h
      · intro _
        rfl
  · intro n
    rw [reevaluate_fail_iter]
    refine ⟨rfl, ?_, rfl⟩
    simp

example : (reevaluate_fail^[1] initialBackoff).delta = some (3/10) := by
  rw [reevaluate_fail_iter]
  norm_num

example : (reevaluate_fail^[4] initialBackoff).delta = some (81/10) ∧
    (reevaluate_fail^[4] initialBackoff).hasTarget = true := by
  rw [reevaluate_fail_iter]
  norm_num

example : (reevaluate_fail^[5] initialBackoff).delta = some (243/10) ∧
    (reevaluate_fail^[5] initialBackoff).hasTarget = false := by
  rw [reevaluate_fail_iter]
  norm_num

/-! ## Idle path assignment (src/game.rs `give_target`, claim C4) -/

/-- The gating and query set of `give_target` (src/game.rs lines 404-457):
while the local cooldown timer is pending the system returns early and
queries nothing; once it is absent or just finished, it runs one planning
query for EVERY hobbit that currently has no `Target` component. `agents`
lists `(id, hasTarget)` pairs; the result is the updated cooldown and the
ids for which a planning query was issued. Note that neither the exclusion
set nor any surface-rebuild event gates this system. -/
def give_target_queries (dt : ℚ) (cooldown : Option ℚ)
    (agents : List (Nat × Bool)) : Option ℚ × List Nat :=
  match cooldown with
  | some r =>
    if r ≤ dt then (none, ((agents.filter fun a => !a.2).map Prod.fst))
    else (some (r - dt), [])
  | none => (none, ((agents.filter fun a => !a.2).map Prod.fst))

/-- **C4, counterexample.** After the 5th consecutive re-validation failure
the agent's delta is 24.3 (> 10) and its `Target` has been dropped — yet on
the very next `give_target` run (no exclusion-set change, no surface rebuild
anywhere in sight) a planning query IS issued for that agent, contradicting
"no further automatic planning attempt is made for that agent until an
Exclusion Set change". -/
theorem parked_agent_requeried_cex :
    (reevaluate_fail^[5] initialBackoff).hasTarget = false ∧
    (reevaluate_fail^[5] initialBackoff).delta = some (243/10) ∧
    (10 : ℚ) < 243/10 ∧
    (give_target_queries 0 none
      [(7, (reevaluate_fail^[5] initialBackoff).hasTarget)]).2 = [7] := by
  rw [reevaluate_fail_iter]
  refine ⟨by norm_num, by norm_num, by norm_num, ?_⟩
  norm_num [give_target_queries]

/-- **C4, amended.** The monotonicity half of the claim holds: an agent's
effective delta never decreases under a re-validation failure (reset on
success and destruction are the only decreases, per `reevaluate_success` and
despawn). But after the ceiling is exceeded the agent merely loses its
`Target`, whereupon `give_target` — which queries every `Target`-less hobbit
whenever its cooldown is clear — issues further planning attempts on later
ticks without any Exclusion Set change being required. -/
theorem backoff_monotonic_and_requeried (a : AgentBackoff)
    (hpos : 0 < effectiveDelta a) :
    effectiveDelta a ≤ effectiveDelta (reevaluate_fail a) ∧
    (∀ (dt : ℚ) (agents : List (Nat × Bool)) (id : Nat),
      (id, false) ∈ agents → id ∈ (give_target_queries dt none agents).2) := by
  constructor
  · unfold effectiveDelta reevaluate_fail at *
    dsimp only
    rw [Option.getD_some]
    linarith
  · intro dt agents id hmem
    unfold give_target_queries
    dsimp only
    apply List.mem_map.mpr
    refine ⟨(id, false), ?_, rfl⟩
    apply List.mem_filter.mpr
    exact ⟨hmem, rfl⟩

/-- Witness for the amended C4. -/
theorem backoff_monotonic_and_requeried_witness :
    effectiveDelta initialBackoff ≤ effectiveDelta (reevaluate_fail initialBackoff) ∧
    (∀ (dt : ℚ) (agents : List (Nat × Bool)) (id : Nat),
      (id, false) ∈ agents → id ∈ (give_target_queries dt none agents).2) :=
  backoff_monotonic_and_requeried initialBackoff (by norm_num [effectiveDelta, initialBackoff])

/-! ## Spawner (src/game.rs `spawn_hobbits`, claim C5) -/

/-- `PathStatus` (src/game.rs lines 65-69). -/
inductive PathStatus where
  | Open
  | Blocked
deriving DecidableEq, Repr

/-- The spawner-relevant state: the live hobbit population (the size of the
`Query<&Hobbit>`), the local spawn timer (remaining seconds), and the
level-wide `PathStatus` resource. -/
structure SpawnState where
  pop : Nat
  timer : Option ℚ
  status : PathStatus
deriving DecidableEq, Repr

/-- One run of `spawn_hobbits` (src/game.rs lines 94-159): on a level
(re)load the timer is cleared and `PathStatus` reset to `Open`; while
`Blocked` the system returns immediately; otherwise a pending timer counts
down and spawns exactly one hobbit when it finishes, and an absent timer is
armed only while the population is below the level cap (with the initial
7.5 s/1.5 s delay on a level change depending on the presence of an intro
message, and the level's `spawn_delay` otherwise). Returns the new state and
whether a hobbit was spawned this run. -/
def spawn_hobbits (cap : Nat) (spawnDelay : ℚ) (hasMessage levelChanged : Bool)
    (dt : ℚ) (s : SpawnState) : SpawnState × Bool :=
  let s1 := if levelChanged then { s with timer := none, status := PathStatus.Open } else s
  if s1.status = PathStatus.Blocked then (s1, false)
  else
    match s1.timer with
    | some r =>
      if r ≤ dt then ({ s1 with timer := none, pop := s1.pop + 1 }, true)
      else ({ s1 with timer := some (r - dt) }, false)
    | none =>
      if s1.pop < cap then
        let d := if levelChanged then (if hasMessage then (15/2 : ℚ) else 3/2) else spawnDelay
        ({ s1 with timer := some d }, false)
      else (s1, false)

/-- The events that can change the spawner-relevant state between runs:
a `spawn_hobbits` run itself, the destruction of a hobbit (delivery or
collision), and a `PathStatus` write by `give_target`. Spawning is the only
source of new hobbits. -/
inductive SpawnStep (cap : Nat) (spawnDelay : ℚ) : SpawnState → SpawnState → Prop where
  | tick (hasMessage levelChanged : Bool) (dt : ℚ) (s : SpawnState) :
      SpawnStep cap spawnDelay s (spawn_hobbits cap spawnDelay hasMessage levelChanged dt s).1
  | despawn (s : SpawnState) (n : Nat) (h : s.pop = n + 1) :
      SpawnStep cap spawnDelay s { s with pop := n }
  | setStatus (s : SpawnState) (st : PathStatus) :
      SpawnStep cap spawnDelay s { s with status := st }

/-- The state at level start: no hobbits, no pending timer, `PathStatus`
initialised `Open` (src/game.rs line 37). -/
def initialSpawnState : SpawnState := ⟨0, none, PathStatus.Open⟩

inductive SpawnReachable (cap : Nat) (spawnDelay : ℚ) : SpawnState → Prop where
  | init : SpawnReachable cap spawnDelay initialSpawnState
  | step {s s' : SpawnState} : SpawnReachable cap spawnDelay s →
      SpawnStep cap spawnDelay s s' → SpawnReachable cap spawnDelay s'



/-- Case analysis of one `spawn_hobbits` run: a spawn fires only from a
pending timer, with no level change this run and the status read as `Open`;
and whenever the resulting state still carries a timer, either the population
is strictly below the cap (just checked when arming it) or the run only
counted the timer down, leaving the population unchanged with the timer
already pending beforehand. -/
lemma spawn_hobbits_cases (cap : Nat) (spawnDelay : ℚ) (hm lc : Bool) (dt : ℚ)
    (t : SpawnState) :
    ((spawn_hobbits cap spawnDelay hm lc dt t).2 = true →
      lc = false ∧ t.status = PathStatus.Open ∧ t.timer.isSome = true) ∧
    ((spawn_hobbits cap spawnDelay hm lc dt t).1.timer.isSome = true →
      ((spawn_hobbits cap spawnDelay hm lc dt t).1.pop < cap ∨
        ((spawn_hobbits cap spawnDelay hm lc dt t).1.pop = t.pop ∧
          t.timer.isSome = true))) := by
  obtain ⟨pop, timer, status⟩ := t
  rcases lc with - | - <;> rcases status with - | - <;> by_cases hpop : pop < cap <;>
    rcases timer with - | r
  all_goals try by_cases hr : r ≤ dt
  all_goals first
    | simp [spawn_hobbits, hpop, hr]
    | simp [spawn_hobbits, hpop]

/-- The timer is only ever armed while the population is strictly below the
cap, and the population never grows while a timer is pending. -/
lemma spawn_timer_invariant (cap : Nat) (spawnDelay : ℚ) {s : SpawnState}
    (h : SpawnReachable cap spawnDelay s) :
    s.timer.isSome = true → s.pop < cap := by
  induction h with
  | init =>
    intro hts
    simp [initialSpawnState] at hts
  | step hreach hstep ih =>
    rename_i s0 s1
    cases hstep with
    | tick hm lc dt =>
      intro htimer
      rcases (spawn_hobbits_cases cap spawnDelay hm lc dt s0).2 htimer with h | ⟨hpop, hpend⟩
      · exact h
      · rw [hpop]
        exact ih hpend
    | despawn n hpop =>
      intro hts
      have := ih hts
      simp only
      omega
    | setStatus st =>
      exact ih

/-- **C5.** In every reachable spawner state, `spawn_hobbits` creates a new
agent only when the `PathStatus` it reads is `Open` (never during a
`Blocked` tick) and only while the live population is strictly below the
level cap `nb_hobbits` (never while it equals the cap). -/
theorem spawn_gate (cap : Nat) (spawnDelay : ℚ) (s : SpawnState)
    (hreach : SpawnReachable cap spawnDelay s)
    (hasMessage levelChanged : Bool) (dt : ℚ)
    (hspawn : (spawn_hobbits cap spawnDelay hasMessage levelChanged dt s).2 = true) :
    s.status = PathStatus.Open ∧ s.pop < cap ∧ s.pop ≠ cap := by
  obtain ⟨-, hopen, hpend⟩ :=
    (spawn_hobbits_cases cap spawnDelay hasMessage levelChanged dt s).1 hspawn
  have hpop := spawn_timer_invariant cap spawnDelay hreach hpend
  exact ⟨hopen, hpop, by omega⟩

/-- Witness for C5: with cap 1 and spawn delay 1, the state reached by
arming the timer from the initial state satisfies the hypotheses, and a
spawn actually fires from it. -/
theorem spawn_gate_witness :
    ((spawn_hobbits 1 1 false false 1 ⟨0, some 1, PathStatus.Open⟩).2 = true) ∧
    ((⟨0, some 1, PathStatus.Open⟩ : SpawnState).status = PathStatus.Open ∧
      (⟨0, some 1, PathStatus.Open⟩ : SpawnState).pop < 1 ∧
      (⟨0, some 1, PathStatus.Open⟩ : SpawnState).pop ≠ 1) := by
  have harm :
      (spawn_hobbits 1 1 false false 0 initialSpawnState).1 =
        ⟨0, some 1, PathStatus.Open⟩ := by
    simp [spawn_hobbits, initialSpawnState]
  have hreach : SpawnReachable 1 1 ⟨0, some 1, PathStatus.Open⟩ := by
    rw [← harm]
    exact SpawnReachable.step SpawnReachable.init
      (SpawnStep.tick false false 0 initialSpawnState)
  have hfire : (spawn_hobbits 1 1 false false 1 ⟨0, some 1, PathStatus.Open⟩).2 = true := by
    simp [spawn_hobbits]
  exact ⟨hfire, spawn_gate 1 1 ⟨0, some 1, PathStatus.Open⟩ hreach false false 1 hfire⟩

/-! ## Arrival and state transitions (src/game.rs `reach_target`, claim C7) -/

structure Vec3Q where
  x : ℚ
  y : ℚ
  z : ℚ
deriving DecidableEq, Repr

/-- Squared Euclidean distance. A source comparison
`a.distance(b) < c` with `c ≥ 0` is embedded exactly as
`distSq a b < c^2` (squaring is strictly monotone on nonnegatives). -/
def distSq (a b : Vec3Q) : ℚ :=
  (a.x - b.x)^2 + (a.y - b.y)^2 + (a.z - b.z)^2

/-- The exact value of the f32 expression `MAX_SPEED / 10.0` = `8.0 / 10.0`
(the nearest f32 to 0.8). -/
def maxSpeedTenthF32 : ℚ := 13421773/16777216

/-- One agent as seen by `reach_target`: its behavioral state, position, the
current waypoint `target.next`, and the remaining waypoint stack
`target.path` (stored reversed, so popping the last element yields the next
waypoint). -/
structure ReachAgent where
  state : HobbitState
  translation : Vec3Q
  next : Vec3Q
  path : List (ℚ × ℚ)
deriving DecidableEq, Repr

/-- The outcome of one `reach_target` pass over one agent. -/
structure ReachResult where
  state : HobbitState
  despawned : Bool
  targetRemoved : Bool
  events : List GameEvent
  next : Vec3Q
  path : List (ℚ × ℚ)
deriving DecidableEq, Repr

/-- `reach_target` (src/game.rs lines 341-402) for one agent: with an empty
waypoint stack, a `Tired` agent within distance 1.5 of `target.next` is
despawned with one `HomeWithTreasure` event, and a `LFG` agent within
distance 1.0 becomes `Tired` and has its `Target` component removed (the
particle effect and audio are presentation-only); with a non-empty stack,
coming within `MAX_SPEED/10` of the current waypoint pops the next waypoint
(at height 1.0) and nothing else changes. -/
def reach_target (a : ReachAgent) : ReachResult :=
  if a.path.isEmpty then
    let delivered := a.state = HobbitState.Tired ∧ distSq a.translation a.next < (3/2)^2
    let arrived := a.state = HobbitState.LFG ∧ distSq a.translation a.next < 1^2
    { state := if arrived then HobbitState.Tired else a.state
      despawned := decide delivered
      targetRemoved := decide arrived
      events := if delivered then [GameEvent.HomeWithTreasure] else []
      next := a.next
      path := a.path }
  else
    if distSq a.translation a.next < maxSpeedTenthF32^2 then
      { state := a.state
        despawned := false
        targetRemoved := false
        events := []
        next := match a.path.getLast? with
          | some p => ⟨p.1, 1, p.2⟩
          | none => a.next
        path := a.path.dropLast }
    else
      { state := a.state
        despawned := false
        targetRemoved := false
        events := []
        next := a.next
        path := a.path }

/-- **C7.** For an agent with an empty waypoint stack: a Seeking (`LFG`)
agent within arrival radius 1.0 of the final waypoint transitions to
Returning (`Tired`) with its path assignment cleared (and is not despawned
and emits nothing); a Returning agent within the larger radius 1.5 is
destroyed with exactly one `HomeWithTreasure` event (its recorded state
unchanged); and while the waypoint stack is non-empty no state transition,
despawn, target removal or event occurs. -/
theorem reach_target_transitions (a : ReachAgent) :
    (a.path = [] → a.state = HobbitState.LFG → distSq a.translation a.next < 1 →
      (reach_target a).state = HobbitState.Tired ∧
      (reach_target a).targetRemoved = true ∧
      (reach_target a).despawned = false ∧
      (reach_target a).events = []) ∧
    (a.path = [] → a.state = HobbitState.Tired → distSq a.translation a.next < 9/4 →
      (reach_target a).despawned = true ∧
      (reach_target a).events = [GameEvent.HomeWithTreasure] ∧
      (reach_target a).state = a.state ∧
      (reach_target a).targetRemoved = false) ∧
    (a.path ≠ [] →
      (reach_target a).state = a.state ∧
      (reach_target a).despawned = false ∧
      (reach_target a).targetRemoved = false ∧
      (reach_target a).events = []) := by
  refine ⟨?_, ?_, ?_⟩
  · intro hempty hstate hdist
    have hnotTired : ¬ (a.state = HobbitState.Tired ∧
        distSq a.translation a.next < (3/2)^2) := by
      rintro ⟨h1, -⟩
      rw [hstate] at h1
      exact HobbitState.noConfusion h1
    have harrived : a.state = HobbitState.LFG ∧ distSq a.translation a.next < 1^2 :=
      ⟨hstate, by rw [one_pow]; exact hdist⟩
    unfold reach_target
    rw [if_pos (by simp [hempty])]
    simp [harrived, hnotTired]
    exact hdist
  · intro hempty hstate hdist
    have hnotLFG : ¬ (a.state = HobbitState.LFG ∧
        distSq a.translation a.next < 1^2) := by
      rintro ⟨h1, -⟩
      rw [hstate] at h1
      exact HobbitState.noConfusion h1
    have hdeliv : a.state = HobbitState.Tired ∧ distSq a.translation a.next < (3/2)^2 :=
      ⟨hstate, by rw [show ((3:ℚ)/2)^2 = 9/4 by norm_num]; exact hdist⟩
    unfold reach_target
    rw [if_pos (by simp [hempty])]
    simp [hdeliv, hnotLFG]
  · intro hne
    unfold reach_target
    rw [if_neg (by simp [hne])]
    split <;> exact ⟨rfl, rfl, rfl, rfl⟩

/-- Witness for C7: a Seeking agent sitting on its final waypoint with an
empty stack. -/
theorem reach_target_transitions_witness :
    (reach_target ⟨HobbitState.LFG, ⟨0, 1, 0⟩, ⟨0, 1, 0⟩, []⟩).state = HobbitState.Tired ∧
    (reach_target ⟨HobbitState.LFG, ⟨0, 1, 0⟩, ⟨0, 1, 0⟩, []⟩).targetRemoved = true ∧
    (reach_target ⟨HobbitState.LFG, ⟨0, 1, 0⟩, ⟨0, 1, 0⟩, []⟩).despawned = false ∧
    (reach_target ⟨HobbitState.LFG, ⟨0, 1, 0⟩, ⟨0, 1, 0⟩, []⟩).events = [] :=
  (reach_target_transitions ⟨HobbitState.LFG, ⟨0, 1, 0⟩, ⟨0, 1, 0⟩, []⟩).1
    rfl rfl (by norm_num [distSq])

/-! ## Steering and orientation (src/game.rs `move_to_target`, claim C8) -/

/-- The exact rational value of the f32 constant `std::f32::consts::PI`. -/
def piF32 : ℚ := 13176795/4194304

/-- The exact rational value of the f32 constant `FRAC_PI_2`. -/
def fracPiTwoF32 : ℚ := 13176795/8388608

/-- The exact rational value of the f32 constant `TAU`. -/
def tauF32 : ℚ := 13176795/2097152

/-- The exact rational value of the f32 literal `0.9` (the per-tick damping
factor). -/
def dampF32 : ℚ := 7549747/8388608

/-- Squared Euclidean length; a source comparison `v.length() > c` with
`c ≥ 0` is embedded exactly as `c^2 < lenSq3 v`. -/
def lenSq3 (v : Vec3Q) : ℚ := v.x^2 + v.y^2 + v.z^2

/-- One body as seen by `move_to_target`: position, linear velocity, the yaw
angle previously stored via `Quat::from_rotation_y` (orientation), the
current waypoint and remaining stack. -/
structure SteerBody where
  translation : Vec3Q
  linvel : Vec3Q
  rotationY : ℚ
  next : Vec3Q
  path : List (ℚ × ℚ)
deriving DecidableEq, Repr

/-- The last four lines of the `move_to_target` loop body (src/game.rs lines
333-337): the yaw written to the transform, computed from a velocity alone:
`-v.z.atan2(v.x) + FRAC_PI_2`, wrapped below `PI` by subtracting `TAU`. -/
def headingOf (atan2 : ℚ → ℚ → ℚ) (v : Vec3Q) : ℚ :=
  let r := -(atan2 v.z v.x) + fracPiTwoF32
  if piF32 < r then r - tauF32 else r

/-- `move_to_target` (src/game.rs lines 315-339) for one body. The
transcendental f32 operations are parameters: `normXZ` normalises a 2-D
vector (`full_direction.xz().normalize()`), `norm3` a 3-D one
(`linvel.normalize()`), `atan2` is `f32::atan2`. Every theorem below
evaluates them only at points where their true values are known exactly.
The steering update, the speed clamp at `MAX_SPEED = 8`, the overshoot
damping by `0.9` when the stack is empty, and the unconditional rotation
write are translated clause by clause. -/
def move_to_target (normXZ : ℚ × ℚ → ℚ × ℚ) (norm3 : Vec3Q → Vec3Q)
    (atan2 : ℚ → ℚ → ℚ) (dt : ℚ) (b : SteerBody) : SteerBody :=
  let full : Vec3Q :=
    ⟨b.next.x - b.translation.x, b.next.y - b.translation.y, b.next.z - b.translation.z⟩
  let desired0 := normXZ (full.x, full.z)
  let desired := (desired0.1 * 8, desired0.2 * 8)
  let steering := (desired.1 - b.linvel.x, desired.2 - b.linvel.z)
  let v1 : Vec3Q := ⟨b.linvel.x + steering.1 * dt, b.linvel.y, b.linvel.z + steering.2 * dt⟩
  let v2 : Vec3Q :=
    if 8^2 < lenSq3 v1 then
      let n := norm3 v1
      ⟨n.x * 8, n.y * 8, n.z * 8⟩
    else v1
  let v3 : Vec3Q :=
    if b.path.isEmpty ∧ lenSq3 full < lenSq3 v2 then
      ⟨v2.x * dampF32, v2.y * dampF32, v2.z * dampF32⟩
    else v2
  { b with linvel := v3, rotationY := headingOf atan2 v3 }

/-- A partial model of `f32::atan2`, exact on the axes: `atan2 0 x = 0` for
`x ≥ 0`, `π` for `x < 0`, `±π/2` on the vertical axis — the true values of
the intrinsic there. Off-axis values (irrelevant to every statement below,
which only evaluate it on the positive x half-axis) are stubbed with 0. -/
def modelAtan2 : ℚ → ℚ → ℚ := fun y x =>
  if y = 0 ∧ 0 ≤ x then 0
  else if y = 0 then piF32
  else if x = 0 ∧ 0 < y then fracPiTwoF32
  else if x = 0 then -fracPiTwoF32
  else 0

/-- A partial model of 2-D `normalize`, used below only at `(1, 0)`, where
the true normalisation is the identity. -/
def modelNormXZ : ℚ × ℚ → ℚ × ℚ := fun v => v

/-- A partial model of 3-D `normalize`; the statements below never take the
speed-clamp branch that uses it. -/
def modelNorm3 : Vec3Q → Vec3Q := fun v => v

/-- The concrete body of the C8 counterexample: prior heading 0, velocity
exactly zero, one unit away from its final waypoint along +x, empty stack. -/
def steerBody0 : SteerBody := ⟨⟨0, 1, 0⟩, ⟨0, 0, 0⟩, 0, ⟨1, 1, 0⟩, []⟩

/-- **C8, counterexample.** A steering tick of `dt = 1/100` on an agent with
zero velocity and prior heading 0: its velocity after the update is the
near-zero `(2/25, 0, 0)` (squared speed `4/625`, i.e. 1% of max speed), yet
its orientation is overwritten to `FRAC_PI_2 ≠ 0` — the prior heading is NOT
kept. The source writes `transform.rotation` unconditionally; there is no
near-zero-velocity guard. -/
theorem move_to_target_overwrites_heading_cex :
    (move_to_target modelNormXZ modelNorm3 modelAtan2 (1/100) steerBody0).rotationY =
      fracPiTwoF32 ∧
    steerBody0.rotationY = 0 ∧
    fracPiTwoF32 ≠ 0 ∧
    (move_to_target modelNormXZ modelNorm3 modelAtan2 (1/100) steerBody0).linvel =
      ⟨2/25, 0, 0⟩ ∧
    lenSq3 (move_to_target modelNormXZ modelNorm3 modelAtan2 (1/100) steerBody0).linvel =
      4/625 := by
  refine ⟨?_, rfl, by norm_num [fracPiTwoF32], ?_, ?_⟩ <;>
    norm_num [move_to_target, steerBody0, modelNormXZ, modelNorm3, modelAtan2, headingOf,
      lenSq3, piF32, fracPiTwoF32, tauF32, dampF32]

/-- **C8, amended.** On every steering tick the agent's orientation is
recomputed unconditionally from its updated velocity alone (`headingOf` of
the velocity the tick just wrote): it never depends on the prior heading, so
an agent with near-zero velocity does not keep its prior heading — at exactly
zero velocity the heading is reset to the `FRAC_PI_2` default of
`atan2(0, 0) = 0`. -/
theorem move_to_target_orientation_from_velocity (normXZ : ℚ × ℚ → ℚ × ℚ)
    (norm3 : Vec3Q → Vec3Q) (atan2 : ℚ → ℚ → ℚ) (dt : ℚ) (b : SteerBody) :
    (move_to_target normXZ norm3 atan2 dt b).rotationY =
      headingOf atan2 (move_to_target normXZ norm3 atan2 dt b).linvel ∧
    (∀ r : ℚ,
      (move_to_target normXZ norm3 atan2 dt { b with rotationY := r }).rotationY =
        (move_to_target normXZ norm3 atan2 dt b).rotationY) :=
  ⟨rfl, fun _ => rfl⟩
